import Mathlib

/-!
Verification of the keynesis-cli passport chain model.

The repository's own sources (src/passport.rs, src/identity.rs, src/random.rs)
are thin wrappers over the keynesis crate.  Everything that is visible in those
sources (the import/export loops, the hex seed handling, the ChaCha seeding) is
embedded here directly from the source.  The keynesis chain primitives
(`Passport::new_with`, `Passport::load_event`, the event codec and the
active-identity semantics) are not part of the repository's sources, so they
are modelled from the spec, as the doc comments below record.
-/

namespace Keynesis

/-- A public identity, abstracted to a number: the chain model only compares
identities for equality. -/
abbrev PublicIdentity := Nat

/-- An event id: per the spec, a sequence position / content-derived identifier,
monotonically assigned by chain position. -/
abbrev EventId := Nat

/-- Modelled from the spec: an event's action is either a `Declaration` that
authorizes a new public identity, or a `Repudiation` that invalidates a
previously-accepted event by reference to its id. -/
inductive EventAction where
  | declaration (w : PublicIdentity)
  | repudiation (event : EventId)
deriving DecidableEq, Repr

/-- Modelled from the spec: an event has an id, an action, and an ordered
collection of signatures indexed by a slot.  Cryptographic validity of a
signature is delegated to the external cryptographic identity service, so a
signature is modelled by the slot index together with the signer's public
identity. -/
structure Event where
  id : EventId
  action : EventAction
  signatures : List (Nat × PublicIdentity)
deriving DecidableEq, Repr

/-- The passport from src/passport.rs: the ordered, validated chain of events.
`events` is the list exposed by `Passport::events` (chain order). -/
structure Passport where
  events : List Event
deriving DecidableEq, Repr

/-- Modelled from the spec: whether the chain contains a repudiation event
targeting the event id `eid`. -/
def isRepudiated (es : List Event) (eid : EventId) : Bool :=
  es.any (fun e => decide (e.action = EventAction.repudiation eid))

/-- Modelled from the spec: the active-identity set of a chain, a pure function
of the ordered event list.  An identity is active when some declaration event
in the chain declared it and that declaration event has not been repudiated. -/
def active (es : List Event) : List PublicIdentity :=
  es.filterMap (fun e =>
    match e.action with
    | EventAction.declaration w => if isRepudiated es e.id then none else some w
    | EventAction.repudiation _ => none)

/-- The active-identity set of a chain with the contribution of the declaration
event `eid` removed: used to state that a repudiation changes nothing else. -/
def activeExcept (es : List Event) (eid : EventId) : List PublicIdentity :=
  es.filterMap (fun e =>
    match e.action with
    | EventAction.declaration w =>
        if isRepudiated es e.id ∨ e.id = eid then none else some w
    | EventAction.repudiation _ => none)

/-- Modelled from the spec: an event is authorized against a chain when one of
its signers is currently active in that chain (spec rule 1 of `load_event`). -/
def signerAuthorized (es : List Event) (e : Event) : Bool :=
  e.signatures.any (fun s => decide (s.2 ∈ active es))

/-- The chain errors of the spec's error model. -/
inductive PassportError where
  | invalidGenesis
  | notAuthorized
  | repudiationTargetMissing
  | repudiationTargetInactive
deriving DecidableEq, Repr

/-- Modelled from the spec: a valid genesis event is a self-signed Declaration,
an event declaring identity `w` that is itself signed by `w`. -/
def isValidGenesis (e : Event) : Bool :=
  match e.action with
  | EventAction.declaration w => e.signatures.any (fun s => decide (s.2 = w))
  | EventAction.repudiation _ => false

/-- Modelled from the spec: `keynesis::Passport::new_with` constructs a
passport from an already-decoded first event, failing with a chain error if
that event is not a valid self-signed genesis declaration. -/
def Passport.new_with (e : Event) : Except PassportError Passport :=
  if isValidGenesis e then Except.ok ⟨[e]⟩
  else Except.error PassportError.invalidGenesis

/-- Modelled from the spec: `keynesis::Passport::load_event` validates the
event against the chain's current active-identity state, then appends it.
Rule 1: some signer must be currently active.  Rule 2: a declaration by an
active signer is appended.  Rule 3: a repudiation's referenced event id must
exist in the chain and currently correspond to an active declaration.  Any
violation is a chain error and the chain is not extended. -/
def Passport.load_event (p : Passport) (e : Event) : Except PassportError Passport :=
  if signerAuthorized p.events e then
    match e.action with
    | EventAction.declaration _ => Except.ok ⟨p.events ++ [e]⟩
    | EventAction.repudiation eid =>
      match p.events.find? (fun ev => decide (ev.id = eid)) with
      | none => Except.error PassportError.repudiationTargetMissing
      | some target =>
        match target.action with
        | EventAction.declaration _ =>
            if isRepudiated p.events eid then
              Except.error PassportError.repudiationTargetInactive
            else Except.ok ⟨p.events ++ [e]⟩
        | EventAction.repudiation _ =>
            Except.error PassportError.repudiationTargetInactive
  else Except.error PassportError.notAuthorized

/-- The mutable-reference view of `load_event` (`fn load_event(&mut self, ...)
-> Result<(), PassportError>`): the state after the call paired with the error,
if any. -/
def Passport.load_event_mut (p : Passport) (e : Event) :
    Passport × Option PassportError :=
  match Passport.load_event p e with
  | Except.ok p' => (p', none)
  | Except.error err => (p, some err)

/-- Loading a list of events one at a time in order, stopping at the first
chain error. -/
def Passport.load_all (p : Passport) : List Event → Except PassportError Passport
  | [] => Except.ok p
  | e :: es =>
    match Passport.load_event p e with
    | Except.ok p' => Passport.load_all p' es
    | Except.error err => Except.error err

/-- Replaying an ordered event sequence from its genesis: the first event seeds
`new_with`, every subsequent event goes through `load_event` in order.  This is
the spec's left-to-right validation fold. -/
def replay : List Event → Except PassportError Passport
  | [] => Except.error PassportError.invalidGenesis
  | e :: es =>
    match Passport.new_with e with
    | Except.ok p => Passport.load_all p es
    | Except.error err => Except.error err

/-- The error kinds `Passport::import` and `Identity::import` produce: decode
and chain failures are mapped to `InvalidData`, an empty stream to
`InvalidInput`, a short read to an end-of-file error. -/
inductive IoErrorKind where
  | invalidInput
  | invalidData
  | unexpectedEof
deriving DecidableEq, Repr

/-- The loop of `Passport::import` from src/passport.rs after the genesis: each
further frame either fails to decode (`none`, mapped to an `InvalidData`
error) or decodes to an event that is fed through `load_event`; the first
failure aborts the whole import. -/
def Passport.import_loop (p : Passport) :
    List (Option Event) → Except IoErrorKind Passport
  | [] => Except.ok p
  | none :: _ => Except.error IoErrorKind.invalidData
  | some e :: rest =>
    match Passport.load_event p e with
    | Except.ok p' => Passport.import_loop p' rest
    | Except.error _ => Except.error IoErrorKind.invalidData

/-- `Passport::import` from src/passport.rs.  The framed byte stream is
modelled after the codec as the list of frame decoding results (`some e` for a
frame decoding to event `e`, `none` for a malformed frame).  An empty stream is
an `InvalidInput` error; the first frame seeds `new_with`; the rest go through
`load_event`; every failure aborts the import with an error. -/
def Passport.import_chain : List (Option Event) → Except IoErrorKind Passport
  | [] => Except.error IoErrorKind.invalidInput
  | none :: _ => Except.error IoErrorKind.invalidData
  | some e :: rest =>
    match Passport.new_with e with
    | Except.ok p => Passport.import_loop p rest
    | Except.error _ => Except.error IoErrorKind.invalidData

/-- `Passport::export` from src/passport.rs, on the frame level: every event of
the chain is encoded, in chain order, as one self-delimiting frame (the codec
round-trip is the spec's codec contract, so an exported frame decodes back to
its event). -/
def Passport.export_frames (p : Passport) : List (Option Event) :=
  p.events.map some

/-- The observable outcome of running `Passport::export` against a writer: the
source's write loop is `writer.send(event).await.unwrap()`, so the function
either returns `Ok(())` or panics; no error value is ever returned. -/
inductive ExportOutcome where
  | ok
  | panicked
deriving DecidableEq, Repr

/-- `Passport::export` from src/passport.rs run against a writer whose `i`-th
write succeeds exactly when `writeOk i`: each event is sent in chain order and
the result of the send is unwrapped, so the first failing write panics. -/
def Passport.export_run : List Event → (Nat → Bool) → Nat → ExportOutcome
  | [], _, _ => ExportOutcome.ok
  | _ :: es, writeOk, i =>
    if writeOk i then Passport.export_run es writeOk (i + 1)
    else ExportOutcome.panicked

/-- The value of one hex digit, as the hex crate accepts them. -/
def hexVal (c : Char) : Option Nat :=
  if '0' ≤ c ∧ c ≤ '9' then some (c.toNat - '0'.toNat)
  else if 'a' ≤ c ∧ c ≤ 'f' then some (c.toNat - 'a'.toNat + 10)
  else if 'A' ≤ c ∧ c ≤ 'F' then some (c.toNat - 'A'.toNat + 10)
  else none

/-- `hex::decode`: two hex digits per output byte; fails on an odd-length
input or on any non-hex character, succeeds on every even-length hex string
whatever its length. -/
def hexDecode : List Char → Option (List Nat)
  | [] => some []
  | [_] => none
  | c1 :: c2 :: rest =>
    match hexVal c1, hexVal c2, hexDecode rest with
    | some hi, some lo, some bs => some ((16 * hi + lo) :: bs)
    | _, _, _ => none

/-- The seed of src/random.rs: `struct Seed(Vec<u8>)` — a byte vector of
whatever length it was constructed with. -/
structure Seed where
  bytes : List Nat
deriving DecidableEq, Repr

/-- `Seed::from_hex` from src/random.rs: `hex::decode(s).map(Self)` — no
length check beyond what `hex::decode` itself does. -/
def Seed.from_hex (s : String) : Option Seed :=
  (hexDecode s.toList).map Seed.mk

/-- A Rust range-slice `arr[..n]` of a fixed-size array: defined only when
`n` is at most the array length, otherwise the program panics. -/
def sliceTo (arr : List Nat) (n : Nat) : Option (List Nat) :=
  if n ≤ arr.length then some (arr.take n) else none

/-- `Seed::into_cha_cha_rng` from src/random.rs, tracked down to the 32-byte
seed buffer handed to `ChaChaRng::from_seed`: a 32-byte zero buffer whose
prefix slice of the seed's length receives the seed bytes
(`seed[..self.0.len()].copy_from_slice(&self.0)`).  The slice panics (`none`)
when the seed is longer than 32 bytes. -/
def Seed.into_cha_cha_rng (s : Seed) : Option (List Nat) :=
  match sliceTo (List.replicate 32 0) s.bytes.length with
  | none => none
  | some _ => some (s.bytes ++ (List.replicate 32 0).drop s.bytes.length)

/-- Modelled from the spec: `keynesis::Seed::SIZE` is 32 bytes ("Seed: opaque
byte sequence, fixed length (32 bytes)"). -/
def seedSize : Nat := 32

/-- `Identity::import` from src/identity.rs: read exactly `2 * Seed::SIZE`
bytes from the stream (`read_exact` fails with an end-of-file error when fewer
are available), then `hex::decode_to_slice` them into the 32-byte seed,
failing with an `InvalidData` error on non-hex content.  The derived identity
is determined by the decoded seed (key derivation is the external
cryptographic identity service), so the result is the seed. -/
def Identity.import_bytes (stream : List Char) : Except IoErrorKind (List Nat) :=
  if stream.length < 2 * seedSize then Except.error IoErrorKind.unexpectedEof
  else
    match hexDecode (stream.take (2 * seedSize)) with
    | some seed => Except.ok seed
    | none => Except.error IoErrorKind.invalidData

/-- Sample genesis: identity 1 declares itself, self-signed. -/
def gEvent : Event := ⟨0, EventAction.declaration 1, [(0, 1)]⟩

/-- Sample second event: identity 1 declares identity 2. -/
def dEvent : Event := ⟨1, EventAction.declaration 2, [(0, 1)]⟩

/-- Sample third event: identity 1 repudiates event 1 (the declaration of 2). -/
def rEvent : Event := ⟨2, EventAction.repudiation 1, [(0, 1)]⟩

/-- Sample one-event passport. -/
def pA : Passport := ⟨[gEvent]⟩

/-- Sample two-event passport. -/
def pAB : Passport := ⟨[gEvent, dEvent]⟩

/-- Sample three-event passport with the repudiation loaded. -/
def pABr : Passport := ⟨[gEvent, dEvent, rEvent]⟩

/-- Sample rogue event: signed only by identity 5, which is not active. -/
def xEvent : Event := ⟨1, EventAction.declaration 7, [(0, 5)]⟩

/-- A 66-character hex string (33 bytes once decoded). -/
def hex66 : String := String.mk (List.replicate 66 'a')

/-- The 33-byte seed `hex66` decodes to. -/
def seed33 : Seed := ⟨List.replicate 33 170⟩

deriving instance DecidableEq for Except

/-- A successful `load_event` extends the chain by exactly the loaded event. -/
theorem load_event_ok_events {p : Passport} {e : Event} {p' : Passport}
    (h : Passport.load_event p e = Except.ok p') : p'.events = p.events ++ [e] := by
  unfold Passport.load_event at h
  split at h
  · split at h
    · injection h with h'
      subst h'
      rfl
    · split at h
      · exact absurd h (by simp)
      · split at h
        · split at h
          · exact absurd h (by simp)
          · injection h with h'
            subst h'
            rfl
        · exact absurd h (by simp)
  · exact absurd h (by simp)

/-- A successful `new_with` produces the one-event chain of its argument. -/
theorem new_with_ok {e : Event} {p : Passport}
    (h : Passport.new_with e = Except.ok p) : p = ⟨[e]⟩ := by
  unfold Passport.new_with at h
  split at h
  · injection h with h'
    exact h'.symm
  · exact absurd h (by simp)

/-- A successful `new_with` starts from a valid self-signed genesis. -/
theorem new_with_ok_genesis {e : Event} {p : Passport}
    (h : Passport.new_with e = Except.ok p) : isValidGenesis e = true := by
  unfold Passport.new_with at h
  split at h
  · assumption
  · exact absurd h (by simp)

/-- A successful `load_all` appends exactly the loaded events, in order. -/
theorem load_all_ok_events : ∀ (es : List Event) (p q : Passport),
    Passport.load_all p es = Except.ok q → q.events = p.events ++ es
  | [], p, q, h => by
      simp only [Passport.load_all] at h
      injection h with h'
      simp [← h']
  | e :: es, p, q, h => by
      simp only [Passport.load_all] at h
      cases hle : Passport.load_event p e with
      | ok p' =>
          rw [hle] at h
          have hq := load_all_ok_events es p' q h
          rw [hq, load_event_ok_events hle]
          simp
      | error err =>
          rw [hle] at h
          exact absurd h (by simp)

/-- A successful replay reproduces exactly the replayed event list. -/
theorem replay_ok_events {es : List Event} {p : Passport}
    (h : replay es = Except.ok p) : p.events = es := by
  cases es with
  | nil => simp [replay] at h
  | cons e es =>
    simp only [replay] at h
    cases hnw : Passport.new_with e with
    | ok p0 =>
      rw [hnw] at h
      rw [load_all_ok_events es p0 p h, new_with_ok hnw]
      rfl
    | error err =>
      rw [hnw] at h
      exact absurd h (by simp)

/-- The import loop succeeds exactly when every frame decodes and the decoded
events all load, with the same resulting passport as `load_all`. -/
theorem import_loop_ok_iff : ∀ (frames : List (Option Event)) (p q : Passport),
    Passport.import_loop p frames = Except.ok q ↔
      ∃ es : List Event, frames = es.map some ∧
        Passport.load_all p es = Except.ok q
  | [], p, q => by
      constructor
      · intro h
        refine ⟨[], rfl, ?_⟩
        simpa [Passport.import_loop, Passport.load_all] using h
      · rintro ⟨es, hes, h⟩
        have hnil : es = [] := by cases es <;> simp_all
        subst hnil
        simpa [Passport.import_loop, Passport.load_all] using h
  | none :: rest, p, q => by
      constructor
      · intro h
        simp [Passport.import_loop] at h
      · rintro ⟨es, hes, h⟩
        cases es <;> simp_all
  | some e :: rest, p, q => by
      constructor
      · intro h
        simp only [Passport.import_loop] at h
        cases hle : Passport.load_event p e with
        | ok p' =>
            rw [hle] at h
            obtain ⟨es, hes, hla⟩ := (import_loop_ok_iff rest p' q).mp h
            refine ⟨e :: es, by simp [hes], ?_⟩
            simp [Passport.load_all, hle, hla]
        | error err =>
            rw [hle] at h
            exact absurd h (by simp)
      · rintro ⟨es, hes, hla⟩
        cases es with
        | nil => simp at hes
        | cons e' es' =>
          simp only [List.map_cons, List.cons.injEq, Option.some.injEq] at hes
          obtain ⟨he, hrest⟩ := hes
          subst he
          subst hrest
          simp only [Passport.load_all] at hla
          cases hle : Passport.load_event p e with
          | ok p' =>
              rw [hle] at hla
              simp only [Passport.import_loop, hle]
              exact (import_loop_ok_iff (es'.map some) p' q).mpr ⟨es', rfl, hla⟩
          | error err =>
              rw [hle] at hla
              exact absurd hla (by simp)

/-- `Passport::import` succeeds exactly when every frame decodes and the
decoded event list replays from its genesis, with the same passport. -/
theorem import_chain_ok_iff (frames : List (Option Event)) (q : Passport) :
    Passport.import_chain frames = Except.ok q ↔
      ∃ es : List Event, frames = es.map some ∧ replay es = Except.ok q := by
  cases frames with
  | nil =>
    constructor
    · intro h
      simp [Passport.import_chain] at h
    · rintro ⟨es, hes, h⟩
      cases es with
      | nil => simp [replay] at h
      | cons e es => simp at hes
  | cons f rest =>
    cases f with
    | none =>
      constructor
      · intro h
        simp [Passport.import_chain] at h
      · rintro ⟨es, hes, h⟩
        cases es <;> simp_all
    | some e =>
      constructor
      · intro h
        simp only [Passport.import_chain] at h
        cases hnw : Passport.new_with e with
        | ok p0 =>
            rw [hnw] at h
            obtain ⟨es, hes, hla⟩ := (import_loop_ok_iff rest p0 q).mp h
            refine ⟨e :: es, by simp [hes], ?_⟩
            simp [replay, hnw, hla]
        | error err =>
            rw [hnw] at h
            exact absurd h (by simp)
      · rintro ⟨es, hes, h⟩
        cases es with
        | nil => simp at hes
        | cons e' es' =>
          simp only [List.map_cons, List.cons.injEq, Option.some.injEq] at hes
          obtain ⟨he, hrest⟩ := hes
          subst he
          subst hrest
          simp only [replay] at h
          cases hnw : Passport.new_with e with
          | ok p0 =>
              rw [hnw] at h
              simp only [Passport.import_chain, hnw]
              exact (import_loop_ok_iff (es'.map some) p0 q).mpr ⟨es', rfl, h⟩
          | error err =>
              rw [hnw] at h
              exact absurd h (by simp)

/-- Appending a repudiation of `eid` marks exactly `eid` as repudiated, on top
of what was already repudiated. -/
theorem isRepudiated_append_rep {es : List Event} {r : Event} {eid : EventId}
    (h : r.action = EventAction.repudiation eid) (x : EventId) :
    isRepudiated (es ++ [r]) x = (isRepudiated es x || decide (x = eid)) := by
  simp [isRepudiated, h, EventAction.repudiation.injEq, eq_comm]

/-- Appending a repudiation of `eid` removes from the active set exactly the
contribution of the declaration event `eid`; every other entry is unchanged. -/
theorem active_append_repudiation {es : List Event} {r : Event} {eid : EventId}
    (h : r.action = EventAction.repudiation eid) :
    active (es ++ [r]) = activeExcept es eid := by
  unfold active activeExcept
  rw [List.filterMap_append]
  have h2 : List.filterMap (fun e =>
      match e.action with
      | EventAction.declaration w =>
          if isRepudiated (es ++ [r]) e.id then none else some w
      | EventAction.repudiation _ => none) [r] = [] := by
    simp [h]
  rw [h2, List.append_nil]
  apply List.filterMap_congr
  intro a _
  cases hact : a.action with
  | declaration w =>
    simp only [hact]
    rw [isRepudiated_append_rep h a.id]
    by_cases h1 : isRepudiated es a.id
    · simp [h1]
    · by_cases h3 : a.id = eid <;> simp [h1, h3]
  | repudiation t => simp

/-- An event none of whose signers is active fails the authorization check. -/
theorem signerAuthorized_eq_false {es : List Event} {e : Event}
    (h : ∀ s ∈ e.signatures, s.2 ∉ active es) :
    signerAuthorized es e = false := by
  unfold signerAuthorized
  simp only [List.any_eq_false, decide_eq_true_eq]
  exact h

/-- `hex::decode` succeeds exactly on even-length all-hex inputs. -/
theorem hexDecode_isSome : ∀ l : List Char,
    (hexDecode l).isSome = true ↔
      (l.length % 2 = 0 ∧ ∀ c ∈ l, (hexVal c).isSome = true)
  | [] => by simp [hexDecode]
  | [c] => by simp [hexDecode]
  | c1 :: c2 :: rest => by
      have ih := hexDecode_isSome rest
      have hmod : (rest.length + 1 + 1) % 2 = rest.length % 2 := by omega
      cases h1 : hexVal c1 with
      | none => simp [hexDecode, h1]
      | some hi =>
        cases h2 : hexVal c2 with
        | none => simp [hexDecode, h1, h2]
        | some lo =>
          cases h3 : hexDecode rest with
          | none =>
            simp only [hexDecode, h1, h2, h3, Option.isSome_none,
              Bool.false_eq_true, false_iff, List.length_cons, hmod] at ih ⊢
            intro hcl
            obtain ⟨hlen, hall⟩ := hcl
            exact ih ⟨hlen, fun c hc => hall c (by simp [hc])⟩
          | some bs =>
            simp only [hexDecode, h1, h2, h3, Option.isSome_some, true_iff,
              List.length_cons, hmod] at ih ⊢
            refine ⟨ih.1, fun c hc => ?_⟩
            simp only [List.mem_cons] at hc
            rcases hc with hc | hc | hc
            · simp [hc, h1]
            · simp [hc, h2]
            · exact ih.2 c hc

/-- Dropping from a replicated list leaves a replicated list. -/
theorem drop_replicate_zeros : ∀ (n m : Nat),
    (List.replicate m (0 : Nat)).drop n = List.replicate (m - n) 0
  | 0, m => by simp
  | n + 1, 0 => by simp
  | n + 1, m + 1 => by simp [List.replicate_succ, drop_replicate_zeros n m]

/-- C1: exporting a passport to a stream and importing that stream back
succeeds and yields a passport with the identical ordered event sequence and
the identical active-identity set. -/
theorem passport_roundtrip (p : Passport) (h : replay p.events = Except.ok p) :
    ∃ p' : Passport,
      Passport.import_chain (Passport.export_frames p) = Except.ok p' ∧
        p'.events = p.events ∧ active p'.events = active p.events := by
  refine ⟨p, ?_, rfl, rfl⟩
  exact (import_chain_ok_iff _ p).mpr ⟨p.events, rfl, h⟩

/-- C1 witness: the one-event passport `pA` round-trips. -/
theorem passport_roundtrip_witness :
    replay pA.events = Except.ok pA ∧
      ∃ p' : Passport,
        Passport.import_chain (Passport.export_frames pA) = Except.ok p' ∧
          p'.events = pA.events ∧ active p'.events = active pA.events :=
  ⟨by decide, passport_roundtrip pA (by decide)⟩

/-- C2: importing an empty stream fails with an input error, and import
produces a passport exactly when the stream is non-empty, every frame decodes,
and the decoded events replay from a valid genesis through `load_event`; in
every other case (empty stream, first event not a valid self-signed genesis,
a frame decoding failure or a chain validation failure) the import returns an
error and no passport is produced. -/
theorem import_error_characterization :
    (Passport.import_chain [] = Except.error IoErrorKind.invalidInput) ∧
    ∀ frames : List (Option Event),
      (∃ p : Passport, Passport.import_chain frames = Except.ok p) ↔
        ∃ es : List Event, ∃ p : Passport,
          frames = es.map some ∧ replay es = Except.ok p := by
  refine ⟨rfl, fun frames => ?_⟩
  constructor
  · rintro ⟨p, h⟩
    obtain ⟨es, hes, hr⟩ := (import_chain_ok_iff frames p).mp h
    exact ⟨es, p, hes, hr⟩
  · rintro ⟨es, p, hes, hr⟩
    exact ⟨p, (import_chain_ok_iff frames p).mpr ⟨es, hes, hr⟩⟩

/-- C3: the export loop of src/passport.rs unwraps every send, so a failing
stream write makes `Passport::export` panic instead of returning the error:
here the very first write fails and the run panics. -/
theorem export_write_error_panics :
    Passport.export_run pA.events (fun _ => false) 0 = ExportOutcome.panicked := by
  decide

/-- C4: `load_event` is an atomic append: a successful call extends the chain
by exactly the loaded event, and a failing call leaves the passport exactly as
it was. -/
theorem load_event_atomic (p : Passport) (e : Event) :
    ((Passport.load_event_mut p e).2 = none →
      (Passport.load_event_mut p e).1.events = p.events ++ [e]) ∧
    ((Passport.load_event_mut p e).2 ≠ none →
      (Passport.load_event_mut p e).1 = p) := by
  cases hle : Passport.load_event p e with
  | ok p' =>
      have hm : Passport.load_event_mut p e = (p', none) := by
        unfold Passport.load_event_mut
        rw [hle]
      rw [hm]
      exact ⟨fun _ => load_event_ok_events hle, fun hn => absurd rfl hn⟩
  | error err =>
      have hm : Passport.load_event_mut p e = (p, some err) := by
        unfold Passport.load_event_mut
        rw [hle]
      rw [hm]
      exact ⟨fun hn => by simp at hn, fun _ => rfl⟩

/-- C4 witness: loading `dEvent` onto `pA` succeeds and appends exactly it. -/
theorem load_event_atomic_witness :
    (Passport.load_event_mut pA dEvent).2 = none ∧
      (Passport.load_event_mut pA dEvent).1.events = pA.events ++ [dEvent] :=
  ⟨by decide, (load_event_atomic pA dEvent).1 (by decide)⟩

/-- C5: an event none of whose signers is currently active in the chain is
rejected by `load_event` with an authorization error (signature cryptographic
validity plays no role: signatures are modelled only by their signer). -/
theorem unauthorized_signer_rejected (p : Passport) (e : Event)
    (h : ∀ s ∈ e.signatures, s.2 ∉ active p.events) :
    Passport.load_event p e = Except.error PassportError.notAuthorized := by
  unfold Passport.load_event
  rw [signerAuthorized_eq_false h]
  simp

/-- C5 witness: `xEvent`, signed only by the inactive identity 5, is rejected
by the one-event passport `pA`. -/
theorem unauthorized_signer_rejected_witness :
    (∀ s ∈ xEvent.signatures, s.2 ∉ active pA.events) ∧
      Passport.load_event pA xEvent = Except.error PassportError.notAuthorized :=
  ⟨by decide, unauthorized_signer_rejected pA xEvent (by decide)⟩

/-- C6: a successful `load_event` strictly extends the chain in order (every
prior event is retained unchanged), and a successful repudiation of event
`eid` keeps every event in the chain while the active-identity set loses
exactly the contribution of the declaration `eid`. -/
theorem append_only_monotonic (p : Passport) (e : Event) (p' : Passport)
    (h : Passport.load_event p e = Except.ok p') :
    (∃ t : List Event, t ≠ [] ∧ p'.events = p.events ++ t) ∧
    (∀ x ∈ p.events, x ∈ p'.events) ∧
    (∀ eid : EventId, e.action = EventAction.repudiation eid →
      active p'.events = activeExcept p.events eid) := by
  have hev := load_event_ok_events h
  refine ⟨⟨[e], by simp, hev⟩, ?_, ?_⟩
  · intro x hx
    rw [hev]
    exact List.mem_append_left _ hx
  · intro eid hact
    rw [hev]
    exact active_append_repudiation hact

/-- C6 witness: repudiating `dEvent` on `pAB` keeps all events and removes
exactly identity 2 from the active set. -/
theorem append_only_monotonic_witness :
    Passport.load_event pAB rEvent = Except.ok pABr ∧
      active pABr.events = activeExcept pAB.events 1 :=
  ⟨by decide,
    (append_only_monotonic pAB rEvent pABr (by decide)).2.2 1 (by decide)⟩

/-- C7: two replays of the same ordered event sequence always produce the same
active-identity set, which is the pure function `active` of the ordered event
list itself. -/
theorem replay_deterministic (es : List Event) (p1 p2 : Passport)
    (h1 : replay es = Except.ok p1) (h2 : replay es = Except.ok p2) :
    active p1.events = active p2.events ∧ p1.events = es ∧
      active p1.events = active es := by
  have e1 := replay_ok_events h1
  have e2 := replay_ok_events h2
  exact ⟨by rw [e1, e2], e1, by rw [e1]⟩

/-- C7 witness: replaying the one-event chain `[gEvent]` twice. -/
theorem replay_deterministic_witness :
    replay [gEvent] = Except.ok pA ∧ active pA.events = active [gEvent] :=
  ⟨by decide, (replay_deterministic [gEvent] pA pA (by decide) (by decide)).2.2⟩

/-- C8 counterexample: `Seed::from_hex` accepts the 4-character input "abcd",
producing a 2-byte seed, although the input is not the hex form of a 32-byte
seed: the claimed length check does not exist in the code. -/
theorem from_hex_length_counterexample :
    Seed.from_hex "abcd" = some ⟨[171, 205]⟩ ∧
      ¬ ([171, 205] : List Nat).length = 32 :=
  ⟨by decide, by decide⟩

/-- C8 amended: `Seed::from_hex` succeeds exactly on inputs of even length all
of whose characters are hex digits, whatever the decoded byte length; it fails
with a decoding error on odd-length inputs or non-hex characters, and it does
not enforce the 32-byte seed length. -/
theorem from_hex_ok_characterization (s : String) :
    (∃ b : Seed, Seed.from_hex s = some b) ↔
      (s.toList.length % 2 = 0 ∧ ∀ c ∈ s.toList, (hexVal c).isSome = true) := by
  rw [← hexDecode_isSome]
  unfold Seed.from_hex
  constructor
  · rintro ⟨b, hb⟩
    cases hd : hexDecode s.toList with
    | none => rw [hd] at hb; simp at hb
    | some bs => simp [hd]
  · intro h
    cases hd : hexDecode s.toList with
    | none => rw [hd] at h; simp at h
    | some bs => exact ⟨⟨bs⟩, by simp [hd]⟩

/-- C9: `Identity::import` reads exactly `2 * Seed::SIZE` bytes — its result
depends only on the first 64 stream bytes — and succeeds exactly when at least
that many bytes are available and they are all hex digits; the produced seed is
their hex decoding, and every other stream fails with a data error. -/
theorem identity_import_characterization (s : List Char) :
    (Identity.import_bytes s = Identity.import_bytes (s.take (2 * seedSize))) ∧
    ((∃ b : List Nat, Identity.import_bytes s = Except.ok b) ↔
      (2 * seedSize ≤ s.length ∧
        ∀ c ∈ s.take (2 * seedSize), (hexVal c).isSome = true)) ∧
    (∀ b : List Nat, Identity.import_bytes s = Except.ok b →
      hexDecode (s.take (2 * seedSize)) = some b) := by
  by_cases hlen : s.length < 2 * seedSize
  · have hts : s.take (2 * seedSize) = s :=
      List.take_of_length_le (Nat.le_of_lt hlen)
    refine ⟨by rw [hts], ?_, ?_⟩
    · constructor
      · rintro ⟨b, hb⟩
        unfold Identity.import_bytes at hb
        rw [if_pos hlen] at hb
        exact absurd hb (by simp)
      · rintro ⟨hge, _⟩
        exact absurd hge (Nat.not_le.mpr hlen)
    · intro b hb
      unfold Identity.import_bytes at hb
      rw [if_pos hlen] at hb
      exact absurd hb (by simp)
  · have hge : 2 * seedSize ≤ s.length := Nat.le_of_not_lt hlen
    have hts : (s.take (2 * seedSize)).length = 2 * seedSize := by
      rw [List.length_take]
      omega
    have htt : (s.take (2 * seedSize)).take (2 * seedSize) = s.take (2 * seedSize) :=
      List.take_of_length_le (by rw [hts])
    refine ⟨?_, ?_, ?_⟩
    · unfold Identity.import_bytes
      rw [if_neg hlen, if_neg (by rw [hts]; exact Nat.lt_irrefl _), htt]
    · constructor
      · rintro ⟨b, hb⟩
        unfold Identity.import_bytes at hb
        rw [if_neg hlen] at hb
        refine ⟨hge, ?_⟩
        cases hd : hexDecode (s.take (2 * seedSize)) with
        | none => rw [hd] at hb; exact absurd hb (by simp)
        | some bs =>
            exact ((hexDecode_isSome (s.take (2 * seedSize))).mp
              (by rw [hd]; rfl)).2
      · rintro ⟨_, hhex⟩
        have hsome : (hexDecode (s.take (2 * seedSize))).isSome = true :=
          (hexDecode_isSome _).mpr ⟨by rw [hts]; decide, hhex⟩
        cases hd : hexDecode (s.take (2 * seedSize)) with
        | none => rw [hd] at hsome; simp at hsome
        | some bs =>
            refine ⟨bs, ?_⟩
            unfold Identity.import_bytes
            rw [if_neg hlen, hd]
    · intro b hb
      unfold Identity.import_bytes at hb
      rw [if_neg hlen] at hb
      cases hd : hexDecode (s.take (2 * seedSize)) with
      | none => rw [hd] at hb; exact absurd hb (by simp)
      | some bs =>
          rw [hd] at hb
          injection hb with hb'
          exact congrArg some hb'

/-- C10: for any seed accepted by `from_hex`, `into_cha_cha_rng` succeeds on
seeds of at most 32 bytes, producing the ChaCha seed buffer whose bytes are the
seed zero-padded on the right to 32 bytes, and panics (out-of-bounds slice) on
seeds longer than 32 bytes, which `from_hex` does produce. -/
theorem into_cha_cha_rng_padding (t : String) (s : Seed)
    (_h : Seed.from_hex t = some s) :
    (s.bytes.length ≤ 32 →
      Seed.into_cha_cha_rng s =
        some (s.bytes ++ List.replicate (32 - s.bytes.length) 0)) ∧
    (32 < s.bytes.length → Seed.into_cha_cha_rng s = none) := by
  constructor
  · intro hle
    unfold Seed.into_cha_cha_rng sliceTo
    rw [if_pos (by simpa using hle), drop_replicate_zeros]
  · intro hgt
    unfold Seed.into_cha_cha_rng sliceTo
    rw [if_neg (by simpa using Nat.not_le.mpr hgt)]

/-- C10 witness: the 66-character hex string `hex66` is accepted by `from_hex`
and yields a 33-byte seed on which `into_cha_cha_rng` panics. -/
theorem into_cha_cha_rng_padding_witness :
    Seed.from_hex hex66 = some seed33 ∧ 32 < seed33.bytes.length ∧
      Seed.into_cha_cha_rng seed33 = none :=
  ⟨by decide, by decide,
    (into_cha_cha_rng_padding hex66 seed33 (by decide)).2 (by decide)⟩

end Keynesis
